import Mathlib

/-!
Verification of the SCION control-service management API
(`control/mgmtapi/api.go`): beacon query-parameter validation, the
beacon sort engine, and the health aggregation logic.

Shallow embedding conventions:
* Go `time.Time` values are modelled as `Int` (nanoseconds relative to
  Go's zero time), so Go's zero value `time.Time{}` is `0` and
  `t.Before(u)` is `t < u`.
* Go slices are Lean `List`s; Go's in-place `sort.Sort` is modelled by
  an explicit embedding of the standard library's pattern-defeating
  quicksort (`sort/zsortinterface.go`, Go 1.19 and later), written with
  explicit index arithmetic and a fuel argument for each loop.
* External collaborators (the ISD-AS parser `addr.ParseIA` and the
  beacon store) are passed in as function parameters, so theorems
  quantify over their behaviour.
-/

namespace Mgmtapi

/-- Go `time.Time`, as nanoseconds relative to the zero time. -/
abbrev Time := Int

/-- The zero value `time.Time{}`. -/
def zeroTime : Time := 0

/-- One hop of the public beacon representation (`Hop` in `api.go`). -/
structure Hop where
  Interface : Nat
  IsdAs : String
deriving Repr, DecidableEq

instance : Inhabited Hop :=
  ⟨⟨0, ""⟩⟩

/-- Public beacon representation (`Beacon` in the generated API types,
populated by `GetBeacons`/`GetBeacon` in `api.go`). Usage labels are the
snake-case strings produced by `UnpackBeaconUsages`. -/
structure Beacon where
  Usages : List String
  IngressInterface : Nat
  Id : String
  LastUpdated : Time
  Timestamp : Time
  Expiration : Time
  Hops : List Hop
deriving Repr, DecidableEq

instance : Inhabited Beacon :=
  ⟨⟨[], 0, "", 0, 0, 0, []⟩⟩

/-- Beacon usage bitmask (`beacon.Usage`, a flag word). -/
abbrev Usage := Nat

/-- Modelled from the spec: the four usage flags of `control/beacon`
(`UsageUpReg`, `UsageDownReg`, `UsageCoreReg`, `UsageProp`) are not under
`src/`; the spec states only that each is a distinct bit, modelled here
as the four low bits. -/
def UsageUpReg : Usage := 1

/-- Modelled from the spec: see `UsageUpReg`. -/
def UsageDownReg : Usage := 2

/-- Modelled from the spec: see `UsageUpReg`. -/
def UsageCoreReg : Usage := 4

/-- Modelled from the spec: see `UsageUpReg`. -/
def UsageProp : Usage := 8

/-- Modelled from the spec: the generated API constants
`UpRegistration`, `DownRegistration`, `CoreRegistration`, `Propagation`
are snake-case string tokens; only their distinctness matters here. -/
def UpRegistration : String := "up_registration"

/-- Modelled from the spec: see `UpRegistration`. -/
def DownRegistration : String := "down_registration"

/-- Modelled from the spec: see `UpRegistration`. -/
def CoreRegistration : String := "core_registration"

/-- Modelled from the spec: see `UpRegistration`. -/
def Propagation : String := "propagation"

/-- `UnpackBeaconUsages` (`api.go` lines 100-115): extracts the usage
bits as snake-case string tokens, scanning the flags in the fixed order
Up, Down, Core, Propagation. -/
def UnpackBeaconUsages (u : Usage) : List String :=
  (if u &&& UsageUpReg ≠ 0 then [UpRegistration] else []) ++
  (if u &&& UsageDownReg ≠ 0 then [DownRegistration] else []) ++
  (if u &&& UsageCoreReg ≠ 0 then [CoreRegistration] else []) ++
  (if u &&& UsageProp ≠ 0 then [Propagation] else [])

/-- ISD-AS identifier (`addr.IA`, a 64-bit integer). -/
abbrev IA := Nat

/-- Beacon store query (`beaconstorage.QueryParams`), restricted to the
fields `api.go` populates. -/
structure QueryParams where
  StartsAt : List IA
  Usages : List Usage
  IngressInterfaces : List Nat
  ValidAt : Time
  SegIDs : List (List Nat)
deriving Repr, DecidableEq

/-- The empty query `beaconstorage.QueryParams{}`. -/
def emptyQuery : QueryParams :=
  ⟨[], [], [], zeroTime, []⟩

/-- Raw query parameters of `GetBeacons` (`GetBeaconsParams`): all
optional. -/
structure GetBeaconsParams where
  StartIsdAs : Option String
  Usages : Option (List String)
  IngressInterface : Option Int
  ValidAt : Option Time
  All : Option Bool
  SortKey : Option String
  Desc : Option Bool
deriving Repr, DecidableEq

/-- A `GetBeaconsParams` with every field absent. -/
def noParams : GetBeaconsParams :=
  ⟨none, none, none, none, none, none, none⟩

/-- Encoding of one usage token (the `switch usageFlag` in `GetBeacons`,
`api.go` lines 130-147): a known token contributes its bit to the
accumulated mask, an unknown token appends one error. -/
def usageFlagStep (acc : Usage × List String) (usageFlag : String) :
    Usage × List String :=
  if usageFlag = CoreRegistration then (acc.1 ||| UsageCoreReg, acc.2)
  else if usageFlag = DownRegistration then (acc.1 ||| UsageDownReg, acc.2)
  else if usageFlag = Propagation then (acc.1 ||| UsageProp, acc.2)
  else if usageFlag = UpRegistration then (acc.1 ||| UsageUpReg, acc.2)
  else (acc.1, acc.2 ++ ["unknown value for parameter usage: " ++ usageFlag])

/-- Folds `usageFlagStep` over the supplied usage tokens, starting from
mask `0` and the error list accumulated so far. -/
def usageFold (tokens : List String) (errs : List String) : Usage × List String :=
  tokens.foldl usageFlagStep (0, errs)

/-- The five recognised sort keys with their comparators
(`sortFactory`, `api.go` lines 255-294); the key defaults to
`last_updated` when the parameter is absent, and an unknown key is an
error. -/
def sortFactory (sortParam : Option String) :
    Except String (Beacon → Beacon → Bool) :=
  let by_ := match sortParam with
    | none => "last_updated"
    | some s => s
  if by_ = "expiration_time" then
    .ok fun a b => a.Expiration < b.Expiration
  else if by_ = "info_time" then
    .ok fun a b => a.Timestamp < b.Timestamp
  else if by_ = "start_isd_as" then
    .ok fun a b =>
      if a.Hops.length = 0 ∨ b.Hops.length = 0 then
        a.Hops.length < b.Hops.length
      else
        (a.Hops.getD 0 default).IsdAs < (b.Hops.getD 0 default).IsdAs
  else if by_ = "last_updated" then
    .ok fun a b => a.LastUpdated < b.LastUpdated
  else if by_ = "ingress_interface" then
    .ok fun a b => a.IngressInterface < b.IngressInterface
  else
    .error ("unknown query parameter sort: " ++ by_)

/-- Validation phase of `GetBeacons` (`api.go` lines 119-172): builds
the beacon store query while accumulating one error per malformed
field, in source order (start ISD-AS, usage tokens, ingress interface,
sort key). The external `addr.ParseIA` is the parameter `parseIA`, and
`now` is the wall-clock instant read by `time.Now()`. -/
def validateBeaconsParams (parseIA : String → Option IA) (now : Time)
    (p : GetBeaconsParams) : QueryParams × List String :=
  let q := emptyQuery
  let errs : List String := []
  let (q, errs) := match p.StartIsdAs with
    | none => (q, errs)
    | some s => match parseIA s with
      | some ia => ({ q with StartsAt := [ia] }, errs)
      | none => (q, errs ++ ["parsing start_isd_as: " ++ s])
  let (q, errs) := match p.Usages with
    | none => (q, errs)
    | some tokens =>
      let (usage, errs) := usageFold tokens errs
      ({ q with Usages := [usage] }, errs)
  let (q, errs) := match p.IngressInterface with
    | none => (q, errs)
    | some v =>
      let errs := if v < 0 ∨ v > 65535 then
          errs ++ ["value for parameter out of range ingress_interface"]
        else errs
      ({ q with IngressInterfaces := [(v % 65536).toNat] }, errs)
  let q := { q with ValidAt :=
    match p.All, p.ValidAt with
    | some true, _ => zeroTime
    | _, some t => t
    | _, none => now }
  let errs := match sortFactory p.SortKey with
    | .ok _ => errs
    | .error e => errs ++ [e]
  (q, errs)

/-- Modelled from the spec: `serrors.List.ToError` (package
`pkg/private/serrors`, not under `src/`) returns nil exactly when the
list is empty and otherwise an error carrying the concatenated
messages; the concatenation is kept as the message list itself. -/
def listToError (errs : List String) : Option (List String) :=
  if errs.isEmpty then none else some errs

/-!
Embedding of the Go standard library sort used by `sort.Sort`
(`sort/zsortinterface.go`, Go 1.19 and later): pattern-defeating
quicksort over an abstract `Less` comparator. The slice is a `List α`,
`data.Less(i, j)` is `less (lget l i) (lget l j)`, and `data.Swap(i, j)`
is `lswap l i j`. Loops are unrolled by structural recursion on a fuel
argument chosen large enough for the loop's iteration bound; exhausted
fuel returns the list unchanged.
-/

section GoSort

variable {α : Type} [Inhabited α]

/-- Index read `data[i]` (Go indices in range in all reachable calls). -/
def lget (l : List α) (i : Nat) : α := l.getD i default

/-- `data.Swap(i, j)`. -/
def lswap (l : List α) (i j : Nat) : List α :=
  if i < l.length ∧ j < l.length then
    (l.set i (lget l j)).set j (lget l i)
  else l

/-- Helper recursion for `bitsLen` (the argument halves each step, so
fuel `n + 1` always suffices). -/
def bitsLenGo : Nat → Nat → Nat
  | 0, _ => 0
  | fuel + 1, n => if n = 0 then 0 else bitsLenGo fuel (n / 2) + 1

/-- `bits.Len(uint(n))`. -/
def bitsLen (n : Nat) : Nat := bitsLenGo (n + 1) n

variable (less : α → α → Bool)

/-- Inner loop of Go `insertionSort`: `for j := i; j > a && data.Less(j, j-1); j-- { data.Swap(j, j-1) }`. -/
def insSortInner : Nat → List α → Nat → Nat → List α
  | 0, l, _, _ => l
  | fuel + 1, l, a, j =>
    if a < j ∧ less (lget l j) (lget l (j - 1)) then
      insSortInner fuel (lswap l j (j - 1)) a (j - 1)
    else l

/-- Outer loop of Go `insertionSort`: `for i := a + 1; i < b; i++`. -/
def insSortOuter : Nat → List α → Nat → Nat → Nat → List α
  | 0, l, _, _, _ => l
  | fuel + 1, l, a, b, i =>
    if i < b then
      insSortOuter fuel (insSortInner less i l a i) a b (i + 1)
    else l

/-- Go `insertionSort(data, a, b)`. -/
def insertionSortGo (l : List α) (a b : Nat) : List α :=
  insSortOuter less (b + 1) l a b (a + 1)

/-- Go `siftDown(data, lo, hi, first)`; `root` is the running `root`. -/
def siftDownGo : Nat → List α → Nat → Nat → Nat → List α
  | 0, l, _, _, _ => l
  | fuel + 1, l, root, hi, first =>
    let child := 2 * root + 1
    if child ≥ hi then l
    else
      let child :=
        if child + 1 < hi ∧ less (lget l (first + child)) (lget l (first + child + 1))
        then child + 1 else child
      if ¬ less (lget l (first + root)) (lget l (first + child)) then l
      else siftDownGo fuel (lswap l (first + root) (first + child)) child hi first

/-- Heap construction loop of Go `heapSort`:
`for i := (hi-1)/2; i >= 0; i--` where the counter argument is `i + 1`. -/
def heapBuildGo : Nat → List α → Nat → Nat → List α
  | 0, l, _, _ => l
  | i + 1, l, hi, first =>
    heapBuildGo i (siftDownGo less hi l i hi first) hi first

/-- Pop loop of Go `heapSort`: `for i := hi - 1; i >= 1; i--`, where the
counter argument is `i`. -/
def heapPopGo : Nat → List α → Nat → List α
  | 0, l, _ => l
  | i + 1, l, first =>
    heapPopGo i
      (siftDownGo less (i + 2) (lswap l first (first + i + 1)) 0 (i + 1) first)
      first

/-- Go `heapSort(data, a, b)`. -/
def heapSortGo (l : List α) (a b : Nat) : List α :=
  let hi := b - a
  heapPopGo less (hi - 1) (heapBuildGo less ((hi - 1) / 2 + 1) l hi a) a

/-- Go `reverseRange(data, a, b)`. -/
def reverseRangeLoop : Nat → List α → Nat → Nat → List α
  | 0, l, _, _ => l
  | fuel + 1, l, i, j =>
    if i < j then reverseRangeLoop fuel (lswap l i j) (i + 1) (j - 1) else l

/-- Go `reverseRange(data, a, b)`. -/
def reverseRangeGo (l : List α) (a b : Nat) : List α :=
  reverseRangeLoop (b + 1) l a (b - 1)

/-- Scan `for i <= j && data.Less(i, a) { i++ }` of Go `partition`. -/
def scanLess : Nat → List α → Nat → Nat → Nat → Nat
  | 0, _, _, i, _ => i
  | fuel + 1, l, a, i, j =>
    if i ≤ j ∧ less (lget l i) (lget l a) then scanLess fuel l a (i + 1) j else i

/-- Scan `for i <= j && !data.Less(j, a) { j-- }` of Go `partition`. -/
def scanNotLess : Nat → List α → Nat → Nat → Nat → Nat
  | 0, _, _, _, j => j
  | fuel + 1, l, a, i, j =>
    if i ≤ j ∧ ¬ less (lget l j) (lget l a) then scanNotLess fuel l a i (j - 1) else j

/-- Main loop of Go `partition` after the first swap: scan both ends,
swap, repeat; returns the list and the final `j`. -/
def partLoopGo : Nat → List α → Nat → Nat → Nat → List α × Nat
  | 0, l, _, _, j => (l, j)
  | fuel + 1, l, a, i, j =>
    let i := scanLess less (j + 2) l a i j
    let j := scanNotLess less (j + 2) l a i j
    if i > j then (l, j)
    else partLoopGo fuel (lswap l i j) a (i + 1) (j - 1)

/-- Go `partition(data, a, b, pivot)`: one Hoare-style quicksort
partition; returns the permuted list, the new pivot position, and
whether the range was already partitioned. -/
def partitionGo (l : List α) (a b pivot : Nat) : List α × Nat × Bool :=
  let l := lswap l a pivot
  let i := scanLess less (b + 2) l a (a + 1) (b - 1)
  let j := scanNotLess less (b + 2) l a i (b - 1)
  if i > j then (lswap l j a, j, true)
  else
    let l := lswap l i j
    let r := partLoopGo less (b + 2) l a (i + 1) (j - 1)
    (lswap r.1 r.2 a, r.2, false)

/-- Scan `for i <= j && !data.Less(a, i) { i++ }` of Go `partitionEqual`. -/
def scanEqI : Nat → List α → Nat → Nat → Nat → Nat
  | 0, _, _, i, _ => i
  | fuel + 1, l, a, i, j =>
    if i ≤ j ∧ ¬ less (lget l a) (lget l i) then scanEqI fuel l a (i + 1) j else i

/-- Scan `for i <= j && data.Less(a, j) { j-- }` of Go `partitionEqual`. -/
def scanEqJ : Nat → List α → Nat → Nat → Nat → Nat
  | 0, _, _, _, j => j
  | fuel + 1, l, a, i, j =>
    if i ≤ j ∧ less (lget l a) (lget l j) then scanEqJ fuel l a i (j - 1) else j

/-- Main loop of Go `partitionEqual`; returns the list and the final `i`. -/
def partEqLoopGo : Nat → List α → Nat → Nat → Nat → List α × Nat
  | 0, l, _, i, _ => (l, i)
  | fuel + 1, l, a, i, j =>
    let i := scanEqI less (j + 2) l a i j
    let j := scanEqJ less (j + 2) l a i j
    if i > j then (l, i)
    else partEqLoopGo fuel (lswap l i j) a (i + 1) (j - 1)

/-- Go `partitionEqual(data, a, b, pivot)`: partitions into elements
equal to the pivot followed by greater ones; returns the list and the
new pivot position. -/
def partitionEqualGo (l : List α) (a b pivot : Nat) : List α × Nat :=
  let l := lswap l a pivot
  partEqLoopGo less (b + 2) l a (a + 1) (b - 1)

/-- Advance scan `for i < b && !data.Less(i, i-1) { i++ }` of Go
`partialInsertionSort`. -/
def pisAdvance : Nat → List α → Nat → Nat → Nat
  | 0, _, _, i => i
  | fuel + 1, l, b, i =>
    if i < b ∧ ¬ less (lget l i) (lget l (i - 1)) then pisAdvance fuel l b (i + 1)
    else i

/-- Left shift loop of Go `partialInsertionSort`:
`for j := i - 1; j >= 1; j-- { if !data.Less(j, j-1) break; data.Swap(j, j-1) }`. -/
def pisShiftLeft : Nat → List α → Nat → List α
  | 0, l, _ => l
  | fuel + 1, l, j =>
    if 1 ≤ j ∧ less (lget l j) (lget l (j - 1)) then
      pisShiftLeft fuel (lswap l j (j - 1)) (j - 1)
    else l

/-- Right shift loop of Go `partialInsertionSort`:
`for j := i + 1; j < b; j++ { if !data.Less(j, j-1) break; data.Swap(j, j-1) }`. -/
def pisShiftRight : Nat → List α → Nat → Nat → List α
  | 0, l, _, _ => l
  | fuel + 1, l, b, j =>
    if j < b ∧ less (lget l j) (lget l (j - 1)) then
      pisShiftRight fuel (lswap l j (j - 1)) b (j + 1)
    else l

/-- Go `partialInsertionSort(data, a, b)` (here `pis`): sorts the range
if it is at most `maxSteps = 5` adjacent inversions away from sorted;
the step counter is the first argument, started at `5`; returns the
list and whether it ended sorted. Ranges shorter than
`shortestShifting = 50` are never modified. -/
def pisGo : Nat → List α → Nat → Nat → Nat → List α × Bool
  | 0, l, _, _, _ => (l, false)
  | steps + 1, l, a, b, i =>
    let i := pisAdvance less (b + 1) l b i
    if i = b then (l, true)
    else if b - a < 50 then (l, false)
    else
      let l := lswap l i (i - 1)
      let l := if i - a ≥ 2 then pisShiftLeft less i l (i - 1) else l
      let l := if b - i ≥ 2 then pisShiftRight less b l b (i + 1) else l
      pisGo steps l a b i

/-- Result state of Go `order2(data, a, b, &swaps)`. -/
def order2Go (l : List α) (a b swaps : Nat) : Nat × Nat × Nat :=
  if less (lget l b) (lget l a) then (b, a, swaps + 1) else (a, b, swaps)

/-- Go `median(data, a, b, c, &swaps)`: index of the median element and
the updated swap counter. -/
def medianGo (l : List α) (a b c swaps : Nat) : Nat × Nat :=
  let r1 := order2Go less l a b swaps
  let r2 := order2Go less l r1.2.1 c r1.2.2
  let r3 := order2Go less l r1.1 r2.1 r2.2.2
  (r3.2.1, r3.2.2)

/-- Go `medianAdjacent(data, a, &swaps)`. -/
def medianAdjacentGo (l : List α) (a swaps : Nat) : Nat × Nat :=
  medianGo less l (a - 1) a (a + 1) swaps

/-- Sortedness hints of Go `choosePivot`. -/
inductive Hint where
  | increasing
  | decreasing
  | unknown
deriving Repr, DecidableEq

/-- Go `choosePivot(data, a, b)`: static pivot below 8 elements,
median-of-three below `shortestNinther = 50`, Tukey ninther above;
`maxSwaps = 12` comparisons all inverted hints a decreasing range. -/
def choosePivotGo (l : List α) (a b : Nat) : Nat × Hint :=
  let len := b - a
  let i := a + len / 4 * 1
  let j := a + len / 4 * 2
  let k := a + len / 4 * 3
  if len ≥ 8 then
    let (i, j, k, swaps) :=
      if len ≥ 50 then
        let ri := medianAdjacentGo less l i 0
        let rj := medianAdjacentGo less l j ri.2
        let rk := medianAdjacentGo less l k rj.2
        (ri.1, rj.1, rk.1, rk.2)
      else (i, j, k, 0)
    let rm := medianGo less l i j k swaps
    if rm.2 = 0 then (rm.1, Hint.increasing)
    else if rm.2 = 12 then (rm.1, Hint.decreasing)
    else (rm.1, Hint.unknown)
  else (j, Hint.increasing)

/-- One step of the xorshift generator used by Go `breakPatterns`
(64-bit shifts modelled on `Nat` with explicit reduction mod `2 ^ 64`). -/
def xorshiftNext (r : Nat) : Nat :=
  let r := (r ^^^ (r <<< 13)) % 2 ^ 64
  let r := r ^^^ (r >>> 7)
  (r ^^^ (r <<< 17)) % 2 ^ 64

/-- The three scattering swaps of Go `breakPatterns`; `count` runs `3,
2, 1` and `i = 3 - count`. -/
def bpLoopGo : Nat → List α → Nat → Nat → Nat → Nat → Nat → List α
  | 0, l, _, _, _, _, _ => l
  | count + 1, l, r, a, len, modulus, idx =>
    let r := xorshiftNext r
    let other := r &&& (modulus - 1)
    let other := if other ≥ len then other - len else other
    bpLoopGo count (lswap l (idx - 1 + (3 - (count + 1))) (a + other)) r a len
      modulus idx

/-- Go `breakPatterns(data, a, b)`: scatters three elements near the
middle of the range using an xorshift generator seeded with the length. -/
def breakPatternsGo (l : List α) (a b : Nat) : List α :=
  let len := b - a
  if len ≥ 8 then
    let modulus := 1 <<< bitsLen len
    let idx := a + len / 4 * 2 - 1
    bpLoopGo 3 l len a len modulus idx
  else l

/-- The conditional `breakPatterns` step at the top of one `pdqsort`
iteration (`if !wasBalanced { breakPatterns(data, a, b) }`). -/
def pdqBreak (l : List α) (a b : Nat) (wasBalanced : Bool) : List α :=
  if wasBalanced then l else breakPatternsGo l a b

/-- The conditional range reversal after `choosePivot`
(`if hint == decreasingHint { reverseRange(data, a, b) }`). -/
def pdqRevStep (l : List α) (a b : Nat) (hint : Hint) : List α :=
  if hint = Hint.decreasing then reverseRangeGo l a b else l

/-- The conditional `partialInsertionSort` attempt
(`if wasBalanced && wasPartitioned && hint == increasingHint`). -/
def pdqPisStep (go : Bool) (l : List α) (a b : Nat) : List α × Bool :=
  if go then pisGo less 5 l a b (a + 1) else (l, false)

/-- Prefix of one Go `pdqsort` loop iteration, from the
`breakPatterns` step through `partialInsertionSort`: returns the
permuted list, whether `partialInsertionSort` finished the range, the
updated `limit`, and the chosen pivot (after the reversal
adjustment). -/
def pdqPrelude (l : List α) (a b limit : Nat) (wasBalanced wasPartitioned : Bool) :
    List α × Bool × Nat × Nat :=
  let l0 := pdqBreak l a b wasBalanced
  let limit1 := if wasBalanced then limit else limit - 1
  let pc := choosePivotGo less l0 a b
  let l1 := pdqRevStep l0 a b pc.2
  let pivot1 := if pc.2 = Hint.decreasing then (b - 1) - (pc.1 - a) else pc.1
  let hint1 := if pc.2 = Hint.decreasing then Hint.increasing else pc.2
  let ps := pdqPisStep less
    (wasBalanced && wasPartitioned && decide (hint1 = Hint.increasing)) l1 a b
  (ps.1, ps.2, limit1, pivot1)

/-- Go `pdqsort(data, a, b, limit)`: the main loop, with one unit of
fuel consumed per loop iteration or recursive call. Constants:
`maxInsertion = 12`; the recursive call on the shorter half restarts
with `wasBalanced = wasPartitioned = true` exactly as a fresh Go call
does, while the iterative continuation keeps the updated flags. -/
def pdqsortGo : Nat → List α → Nat → Nat → Nat → Bool → Bool → List α
  | 0, l, _, _, _, _, _ => l
  | fuel + 1, l, a, b, limit, wasBalanced, wasPartitioned =>
    let length := b - a
    if length ≤ 12 then insertionSortGo less l a b
    else if limit = 0 then heapSortGo less l a b
    else
      let pp := pdqPrelude less l a b limit wasBalanced wasPartitioned
      if pp.2.1 then pp.1
      else
        let l2 := pp.1
        let limit1 := pp.2.2.1
        let pivot1 := pp.2.2.2
        if 0 < a ∧ ¬ less (lget l2 (a - 1)) (lget l2 pivot1) then
          let pe := partitionEqualGo less l2 a b pivot1
          pdqsortGo fuel pe.1 pe.2 b limit1 wasBalanced wasPartitioned
        else
          let pr := partitionGo less l2 a b pivot1
          let mid := pr.2.1
          let wasBal := decide (min (mid - a) (b - mid) ≥ length / 8)
          if mid - a < b - mid then
            let l3 := pdqsortGo fuel pr.1 a mid limit1 true true
            pdqsortGo fuel l3 (mid + 1) b limit1 wasBal pr.2.2
          else
            let l3 := pdqsortGo fuel pr.1 (mid + 1) b limit1 true true
            pdqsortGo fuel l3 a mid limit1 wasBal pr.2.2

/-- Go `sort.Sort(data)`: no-op below two elements, otherwise `pdqsort`
over the whole range with `limit = bits.Len(uint(n))`. -/
def sortGo (l : List α) : List α :=
  if l.length ≤ 1 then l
  else pdqsortGo less (8 * l.length + 64) l 0 l.length (bitsLen l.length) true true

end GoSort

/-- `sort.Reverse`: the wrapped interface answers `Less(i, j)` with the
inner `Less(j, i)`, reversing the comparator. -/
def reverseLess {α : Type} (less : α → α → Bool) : α → α → Bool :=
  fun a b => less b a

/-- Sorting step of `GetBeacons` (`api.go` lines 224-229): wrap the
projected beacons in a `sortWrapper`, reverse the comparator when
`params.Desc` is supplied and true, and run `sort.Sort`. -/
def sortApply (less : Beacon → Beacon → Bool) (desc : Option Bool)
    (l : List Beacon) : List Beacon :=
  sortGo (if desc = some true then reverseLess less else less) l

/-- Hop field of a stored AS entry (`as.HopEntry.HopField`). -/
structure HopField where
  ConsIngress : Nat
  ConsEgress : Nat
deriving Repr, DecidableEq

/-- Hop entry of a stored AS entry (`as.HopEntry`). -/
structure HopEntry where
  HopField : HopField
deriving Repr, DecidableEq

/-- One AS entry of a stored path segment; `Local` is the rendered
`as.Local.String()`. -/
structure ASEntry where
  HopEntry : HopEntry
  Local : String
deriving Repr, DecidableEq

/-- Stored path segment, with the externally computed values `api.go`
reads from it: `s.Info.Timestamp` (`InfoTimestamp`), `s.MinExpiry()`
(`MinExpiry`) and `segapi.SegID(s)` (`SegID`). -/
structure PathSegment where
  ASEntries : List ASEntry
  InfoTimestamp : Time
  MinExpiry : Time
  SegID : String
deriving Repr, DecidableEq

/-- One beacon store result (`beaconstorage.Beacon`), flattened:
`result.Usage`, `result.Beacon.InIfID`, `result.Beacon.Segment`, and
`result.LastUpdated`. -/
structure StoredBeacon where
  Usage : Usage
  InIfID : Nat
  Segment : PathSegment
  LastUpdated : Time
deriving Repr, DecidableEq

instance : Inhabited StoredBeacon :=
  ⟨⟨0, 0, ⟨[], 0, 0, ""⟩, 0⟩⟩

/-- Hop list construction (`api.go` lines 201-213 and 349-361): entry 0
contributes only its egress hop, every later entry contributes its
ingress hop then its egress hop. -/
def hopsOfSegment : List ASEntry → List Hop
  | [] => []
  | e0 :: rest =>
    ⟨e0.HopEntry.HopField.ConsEgress, e0.Local⟩ ::
      rest.flatMap fun e =>
        [⟨e.HopEntry.HopField.ConsIngress, e.Local⟩,
         ⟨e.HopEntry.HopField.ConsEgress, e.Local⟩]

/-- Projection of one store result into the public beacon
representation (`api.go` lines 195-223, also 344-372). UTC conversion
is the identity on the `Int` time model. -/
def projectBeacon (r : StoredBeacon) : Beacon :=
  { Usages := UnpackBeaconUsages r.Usage
    IngressInterface := r.InIfID
    Id := r.Segment.SegID
    LastUpdated := r.LastUpdated
    Timestamp := r.Segment.InfoTimestamp
    Expiration := r.Segment.MinExpiry
    Hops := hopsOfSegment r.Segment.ASEntries }

/-- Outcome of a `GetBeacons` request: a 400-class problem with the
accumulated messages, a 500-class problem, or the sorted beacon list. -/
inductive GetBeaconsRes where
  | badRequest (title : String) (details : List String)
  | internalError (title detail : String)
  | ok (beacons : List Beacon)
deriving Repr, DecidableEq

/-- The `GetBeacons` handler (`api.go` lines 118-241), with the external
collaborators as parameters: `parseIA` for `addr.ParseIA`, `now` for
`time.Now()`, and `store` for `s.Beacons.GetBeacons`. A failed sort-key
resolution always contributes an error to the validation list, so the
success path's `.error` branch is unreachable (in Go the nil `sortFn`
is simply never called) and returns the unsorted projection. -/
def getBeaconsRun (parseIA : String → Option IA) (now : Time)
    (store : QueryParams → Except String (List StoredBeacon))
    (p : GetBeaconsParams) : GetBeaconsRes :=
  let v := validateBeaconsParams parseIA now p
  match listToError v.2 with
  | some msgs => .badRequest "malformed query parameters" msgs
  | none =>
    match store v.1 with
    | .error e => .internalError "error getting beacons" e
    | .ok results =>
      let rep := results.map projectBeacon
      match sortFactory p.SortKey with
      | .error _ => .ok rep
      | .ok less => .ok (sortApply less p.Desc rep)

/-- Outcome of a `GetBeacon` request. -/
inductive GetBeaconRes where
  | badRequest (title detail : String)
  | internalError (title detail : String)
  | ok (beacon : Beacon)
deriving Repr, DecidableEq

/-- Value of one hexadecimal digit (`encoding/hex.fromHexChar`). -/
def hexDigitVal (c : Char) : Option Nat :=
  if '0' ≤ c ∧ c ≤ '9' then some (c.toNat - '0'.toNat)
  else if 'a' ≤ c ∧ c ≤ 'f' then some (c.toNat - 'a'.toNat + 10)
  else if 'A' ≤ c ∧ c ≤ 'F' then some (c.toNat - 'A'.toNat + 10)
  else none

/-- Byte-pair decoding loop of `encoding/hex.DecodeString`: fails on an
odd-length input or any non-hexadecimal character. -/
def hexDecodeChars : List Char → Option (List Nat)
  | [] => some []
  | [_] => none
  | c1 :: c2 :: rest =>
    match hexDigitVal c1, hexDigitVal c2, hexDecodeChars rest with
    | some d1, some d2, some bs => some ((16 * d1 + d2) :: bs)
    | _, _, _ => none

/-- `encoding/hex.DecodeString`. -/
def hexDecode (s : String) : Option (List Nat) :=
  hexDecodeChars s.toList

/-- The `GetBeacon` handler (`api.go` lines 295-384). -/
def getBeaconRun (segmentId : String)
    (store : QueryParams → Except String (List StoredBeacon)) : GetBeaconRes :=
  match hexDecode segmentId with
  | none => .badRequest "error decoding segment id" segmentId
  | some id =>
    match store { emptyQuery with SegIDs := [id] } with
    | .error e => .internalError "error getting beacons" e
    | .ok results =>
      if results.length = 0 then
        .badRequest "malformed query parameter"
          ("no beacon matched provided segment ID: " ++ segmentId)
      else if results.length > 1 then
        .badRequest "malformed query parameter"
          (toString results.length ++ " beacons matched provided segment ID: "
            ++ segmentId)
      else
        .ok (projectBeacon (results.getD 0 default))

/-!
Health aggregation (`GetHealth`, `api.go` lines 745-843).
-/

/-- Health check status (the generated API `Status` enum). -/
inductive HStatus where
  | Passing
  | Degraded
  | Failing
deriving Repr, DecidableEq

/-- `SignerHealthData` (`api.go` lines 58-63). -/
structure SignerHealthData where
  SignerMissing : Bool
  SignerMissingDetail : String
  Expiration : Time
  InGrace : Bool
deriving Repr, DecidableEq

/-- `cppki.TRCID`. -/
structure TRCID where
  ISD : Nat
  Base : Nat
  Serial : Nat
deriving Repr, DecidableEq

/-- `TRCHealthData` (`api.go` lines 66-70). -/
structure TRCHealthData where
  TRCNotFound : Bool
  TRCNotFoundDetail : String
  TRCID : TRCID
deriving Repr, DecidableEq

/-- The `CAHealthStatus` string constants (`api.go` lines 74-79). -/
def Available : String := "available"

/-- See `Available`. -/
def Starting : String := "starting"

/-- See `Available`. -/
def Stopping : String := "stopping"

/-- See `Available`. -/
def Unavailable : String := "unavailable"

/-- One value of a check's `CheckData` map; `time t` stands for the
RFC 3339 rendering of the instant `t`. -/
inductive CheckValue where
  | str (s : String)
  | nat (n : Nat)
  | bool (b : Bool)
  | time (t : Time)
deriving Repr, DecidableEq

/-- One health check (the generated API `Check` record). -/
structure Check where
  Status : HStatus
  Name : String
  Detail : Option String
  Data : List (String × CheckValue)
deriving Repr, DecidableEq

/-- Six hours in nanoseconds (`6 * time.Hour`). -/
def sixHours : Time := 21600000000000

/-- The signer check of `GetHealth` (`api.go` lines 749-785):
`time.Until(x) = x - now`, so rule 2 is `Expiration - now ≤ 0` and rule
4 is `Expiration - now < 6h`. -/
def signerCheck (now : Time) (h : SignerHealthData) : Check :=
  if h.SignerMissing then
    { Status := .Failing
      Name := "valid signer available"
      Detail := if h.SignerMissingDetail ≠ "" then some h.SignerMissingDetail
        else none
      Data := [] }
  else if h.Expiration - now ≤ 0 then
    { Status := .Failing
      Name := "valid signer available"
      Detail := some "signer certificate has expired"
      Data := [("expires_at", .time h.Expiration)] }
  else if h.InGrace then
    { Status := .Degraded
      Name := "valid signer available"
      Detail := some "signer certificate is authenticated\n\t\t\tby TRC in grace period"
      Data := [("expires_at", .time h.Expiration), ("in_grace", .bool true)] }
  else if h.Expiration - now < sixHours then
    { Status := .Degraded
      Name := "valid signer available"
      Detail := some "signer certificate is close to expiration"
      Data := [("expires_at", .time h.Expiration)] }
  else
    { Status := .Passing
      Name := "valid signer available"
      Detail := none
      Data := [("expires_at", .time h.Expiration)] }

/-- The trust-root check of `GetHealth` (`api.go` lines 787-803): the
detail is set from a non-empty `TRCNotFoundDetail` before the
found/not-found split, and the found branch does not clear it. -/
def trcCheck (h : TRCHealthData) : Check :=
  let detail := if h.TRCNotFoundDetail ≠ "" then some h.TRCNotFoundDetail
    else none
  if ¬ h.TRCNotFound then
    { Status := .Passing
      Name := "TRC for local ISD available"
      Detail := detail
      Data := [("base_number", .nat h.TRCID.Base),
               ("serial_number", .nat h.TRCID.Serial),
               ("isd", .nat h.TRCID.ISD)] }
  else
    { Status := .Failing
      Name := "TRC for local ISD available"
      Detail := detail
      Data := [] }

/-- The CA-connectivity check of `GetHealth` (`api.go` lines 805-817):
built only when the probe reports applicability. -/
def caCheck (status : String) : Check :=
  { Status := if status = Available then .Passing else .Degraded
    Name := "CPPKI CA Connection"
    Detail := none
    Data := [("status", .str status)] }

/-- The ordered check list of one `GetHealth` report: signer, trust
root, then the CA check when the probe declared itself applicable
(`ca = some status`). -/
def healthChecks (now : Time) (sd : SignerHealthData) (td : TRCHealthData)
    (ca : Option String) : List Check :=
  [signerCheck now sd, trcCheck td] ++
    match ca with
    | some s => [caCheck s]
    | none => []

/-- Modelled from the spec: `healthapi.AggregateHealthStatus` (package
`private/mgmtapi/health/api`, not under `src/`) reduces the statuses to
the least healthy one — Failing if any check fails, else Degraded if
any is degraded, else Passing. -/
def AggregateHealthStatus (statuses : List HStatus) : HStatus :=
  if statuses.any (· = .Failing) then .Failing
  else if statuses.any (· = .Degraded) then .Degraded
  else .Passing

/-- The aggregated health report (the generated API `Health` record,
built in `api.go` lines 818-831). -/
structure Health where
  Status : HStatus
  Checks : List Check
deriving Repr, DecidableEq

/-- The `GetHealth` handler (`api.go` lines 745-843), with the three
probe results as parameters; `ca = none` models the probe's second
return value being false. -/
def getHealthRun (now : Time) (sd : SignerHealthData) (td : TRCHealthData)
    (ca : Option String) : Health :=
  let checks := healthChecks now sd td ca
  { Status := AggregateHealthStatus (checks.map (·.Status))
    Checks := checks }

/-- Rank of a status in the total order Failing > Degraded > Passing. -/
def statusRank : HStatus → Nat
  | .Passing => 0
  | .Degraded => 1
  | .Failing => 2

/-- The less healthy of two statuses under that total order. -/
def worseStatus (a b : HStatus) : HStatus :=
  if statusRank a < statusRank b then b else a

/-- The `last_updated` comparator returned by `sortFactory` (the
default sort key). -/
def lastUpdatedLess : Beacon → Beacon → Bool :=
  fun a b => a.LastUpdated < b.LastUpdated

/-- The `start_isd_as` comparator returned by `sortFactory`. -/
def startIsdAsLess : Beacon → Beacon → Bool :=
  fun a b =>
    if a.Hops.length = 0 ∨ b.Hops.length = 0 then
      a.Hops.length < b.Hops.length
    else
      (a.Hops.getD 0 default).IsdAs < (b.Hops.getD 0 default).IsdAs

/-- A projected beacon with the given `last_updated` instant and
identifier, all other fields trivial. -/
def cexBeacon (k : Time) (id : String) : Beacon :=
  { Usages := []
    IngressInterface := 0
    Id := id
    LastUpdated := k
    Timestamp := 0
    Expiration := 0
    Hops := [] }

/-- Thirteen store results in store order `b00 … b12`: `b00` and `b01`
share `last_updated = 1`, the remaining eleven share
`last_updated = 0`. -/
def c2Input : List Beacon :=
  [cexBeacon 1 "b00", cexBeacon 1 "b01", cexBeacon 0 "b02",
   cexBeacon 0 "b03", cexBeacon 0 "b04", cexBeacon 0 "b05",
   cexBeacon 0 "b06", cexBeacon 0 "b07", cexBeacon 0 "b08",
   cexBeacon 0 "b09", cexBeacon 0 "b10", cexBeacon 0 "b11",
   cexBeacon 0 "b12"]

/-- A projected beacon with no hops. -/
def c8NoHops : Beacon :=
  { Usages := []
    IngressInterface := 0
    Id := "zero"
    LastUpdated := 0
    Timestamp := 0
    Expiration := 0
    Hops := [] }

/-- A projected beacon with one hop. -/
def c8OneHop : Beacon :=
  { Usages := []
    IngressInterface := 0
    Id := "one"
    LastUpdated := 0
    Timestamp := 0
    Expiration := 0
    Hops := [⟨1, "1-ff00:0:110"⟩] }

/-!
Helper lemmas.
-/

/-- Whether a usage token is one of the four known tokens. -/
def isKnownUsage (t : String) : Bool :=
  t = CoreRegistration ∨ t = DownRegistration ∨ t = Propagation ∨
    t = UpRegistration

/-- Mask contribution of one usage token (no contribution when the
token is unknown). -/
def usageOr (u : Usage) (t : String) : Usage :=
  if t = CoreRegistration then u ||| UsageCoreReg
  else if t = DownRegistration then u ||| UsageDownReg
  else if t = Propagation then u ||| UsageProp
  else if t = UpRegistration then u ||| UsageUpReg
  else u

/-- Error message for one unknown usage token. -/
def unknownUsageMsg (t : String) : String :=
  "unknown value for parameter usage: " ++ t

/-- The usage fold computes the OR of the known tokens' bits and
appends one error per unknown token, in token order. -/
theorem usageFold_eq (tokens : List String) (u : Usage) (errs : List String) :
    tokens.foldl usageFlagStep (u, errs) =
      (tokens.foldl usageOr u,
        errs ++ (tokens.filter fun t => ¬ isKnownUsage t).map unknownUsageMsg) := by
  induction tokens generalizing u errs with
  | nil => simp
  | cons t rest ih =>
    by_cases h1 : t = CoreRegistration
    · subst h1
      simp [usageFlagStep, usageOr, isKnownUsage, ih, CoreRegistration,
        DownRegistration, Propagation, UpRegistration]
    · by_cases h2 : t = DownRegistration
      · subst h2
        simp [usageFlagStep, usageOr, isKnownUsage, ih, CoreRegistration,
          DownRegistration, Propagation, UpRegistration]
      · by_cases h3 : t = Propagation
        · subst h3
          simp [usageFlagStep, usageOr, isKnownUsage, ih, CoreRegistration,
            DownRegistration, Propagation, UpRegistration]
        · by_cases h4 : t = UpRegistration
          · subst h4
            simp [usageFlagStep, usageOr, isKnownUsage, ih, CoreRegistration,
              DownRegistration, Propagation, UpRegistration]
          · have hk : isKnownUsage t = false := by
              simp [isKnownUsage, h1, h2, h3, h4]
            simp [usageFlagStep, usageOr, h1, h2, h3, h4, ih, hk,
              unknownUsageMsg]

/-- Closed form of the `GetBeacons` validation phase: each query field
and each error contribution comes from its own parameter, with the
errors concatenated in source order. -/
theorem validateBeaconsParams_eq (pia : String → Option IA) (now : Time)
    (p : GetBeaconsParams) :
    validateBeaconsParams pia now p =
    ({ StartsAt := match p.StartIsdAs with
         | some s => match pia s with
           | some ia => [ia]
           | none => []
         | none => []
       Usages := match p.Usages with
         | some tokens => [tokens.foldl usageOr 0]
         | none => []
       IngressInterfaces := match p.IngressInterface with
         | some v => [(v % 65536).toNat]
         | none => []
       ValidAt := match p.All, p.ValidAt with
         | some true, _ => zeroTime
         | _, some t => t
         | _, none => now
       SegIDs := [] },
     (match p.StartIsdAs with
        | some s => match pia s with
          | some _ => []
          | none => ["parsing start_isd_as: " ++ s]
        | none => []) ++
     (match p.Usages with
        | some tokens =>
          (tokens.filter fun t => ¬ isKnownUsage t).map unknownUsageMsg
        | none => []) ++
     (match p.IngressInterface with
        | some v =>
          if v < 0 ∨ v > 65535 then
            ["value for parameter out of range ingress_interface"]
          else []
        | none => []) ++
     (match sortFactory p.SortKey with
        | .ok _ => []
        | .error e => [e])) := by
  obtain ⟨sia, us, ii, va, al, sk, d⟩ := p
  rcases sia with _ | s
  case' some => rcases hp : pia s with _ | ia
  all_goals
    rcases us with _ | tokens <;> rcases ii with _ | v <;>
      cases hsk : sortFactory sk <;>
      simp_all [validateBeaconsParams, usageFold, usageFold_eq, emptyQuery] <;>
      (try (split <;> simp_all))

/-!
Claim theorems.
-/

/-- C1: for every `GetBeacons` request, validation errors are
accumulated across all fields — the error count is the sum of one per
unparsable start ISD-AS, one per unknown usage token, one per
out-of-range ingress interface, and one per unknown sort key — and
whenever at least one field is malformed the request fails as a whole
with the 400 `malformed query parameters` problem carrying the
concatenated messages, independently of the beacon store (the store is
never queried). -/
theorem c1_errors_accumulate_and_fail_atomically
    (pia : String → Option IA) (now : Time) (p : GetBeaconsParams)
    (store store' : QueryParams → Except String (List StoredBeacon)) :
    (validateBeaconsParams pia now p).2.length =
      ((match p.StartIsdAs with
        | some s => if pia s = none then 1 else 0
        | none => 0) +
       (match p.Usages with
        | some tokens => (tokens.filter fun t => ¬ isKnownUsage t).length
        | none => 0) +
       (match p.IngressInterface with
        | some v => if v < 0 ∨ v > 65535 then 1 else 0
        | none => 0) +
       (match sortFactory p.SortKey with
        | .ok _ => 0
        | .error _ => 1)) ∧
    ((validateBeaconsParams pia now p).2 ≠ [] →
      getBeaconsRun pia now store p =
        .badRequest "malformed query parameters"
          (validateBeaconsParams pia now p).2 ∧
      getBeaconsRun pia now store p = getBeaconsRun pia now store' p) := by
  constructor
  · rw [validateBeaconsParams_eq]
    rcases p with ⟨sia, us, ii, va, al, sk, d⟩
    rcases sia with _ | s
    case' some => rcases hp : pia s with _ | ia
    all_goals
      rcases us with _ | tokens <;> rcases ii with _ | v <;>
        cases hsk : sortFactory sk <;>
        simp_all <;> (try (split <;> simp_all)) <;> (try omega)
  · intro hne
    have hrun : getBeaconsRun pia now store p =
        .badRequest "malformed query parameters"
          (validateBeaconsParams pia now p).2 := by
      unfold getBeaconsRun
      simp only [listToError, List.isEmpty_eq_true]
      rw [if_neg hne]
    have hrun' : getBeaconsRun pia now store' p =
        .badRequest "malformed query parameters"
          (validateBeaconsParams pia now p).2 := by
      unfold getBeaconsRun
      simp only [listToError, List.isEmpty_eq_true]
      rw [if_neg hne]
    exact ⟨hrun, hrun.trans hrun'.symm⟩

/-- Witness for C1: an unparsable start ISD-AS together with an
out-of-range ingress interface yields exactly two errors and a 400
response that does not depend on the store. -/
theorem c1_witness :
    (validateBeaconsParams (fun _ => none) 0
        ⟨some "x", none, some 70000, none, none, none, none⟩).2 ≠ [] ∧
    (validateBeaconsParams (fun _ => none) 0
        ⟨some "x", none, some 70000, none, none, none, none⟩).2.length = 2 ∧
    getBeaconsRun (fun _ => none) 0 (fun _ => .ok [])
        ⟨some "x", none, some 70000, none, none, none, none⟩ =
      .badRequest "malformed query parameters"
        (validateBeaconsParams (fun _ => none) 0
          ⟨some "x", none, some 70000, none, none, none, none⟩).2 ∧
    getBeaconsRun (fun _ => none) 0 (fun _ => .ok [])
        ⟨some "x", none, some 70000, none, none, none, none⟩ =
      getBeaconsRun (fun _ => none) 0 (fun _ => .error "store down")
        ⟨some "x", none, some 70000, none, none, none, none⟩ := by
  have h := c1_errors_accumulate_and_fail_atomically (fun _ => none) 0
    ⟨some "x", none, some 70000, none, none, none, none⟩
    (fun _ => .ok []) (fun _ => .error "store down")
  exact ⟨by decide, by decide, h.2 (by decide)⟩

/-- C6: validity selection in `GetBeacons` — an `all=true` flag forces
the zero time (time filtering disabled) and wins over any explicit
`validAt` instant; otherwise an explicit instant is used; otherwise the
current time at request handling. -/
theorem c6_validity_selection (pia : String → Option IA) (now : Time)
    (p : GetBeaconsParams) :
    (p.All = some true →
      (validateBeaconsParams pia now p).1.ValidAt = zeroTime) ∧
    (p.All ≠ some true → ∀ t, p.ValidAt = some t →
      (validateBeaconsParams pia now p).1.ValidAt = t) ∧
    (p.All ≠ some true → p.ValidAt = none →
      (validateBeaconsParams pia now p).1.ValidAt = now) := by
  rw [validateBeaconsParams_eq]
  rcases p with ⟨sia, us, ii, va, al, sk, d⟩
  refine ⟨?_, ?_, ?_⟩
  · intro h
    rw [h]
    rcases va with _ | t <;> rfl
  · intro h t ht
    rw [ht]
    rcases al with _ | b
    · rfl
    · cases b
      · rfl
      · exact absurd rfl h
  · intro h ht
    rw [ht]
    rcases al with _ | b
    · rfl
    · cases b
      · rfl
      · exact absurd rfl h

/-- Witness for C6: with both `all=true` and an explicit instant
supplied, the filter's valid-at timestamp is the zero time. -/
theorem c6_witness :
    (⟨none, none, none, some 42, some true, none, none⟩ :
        GetBeaconsParams).All = some true ∧
    (validateBeaconsParams (fun _ => none) 7
        ⟨none, none, none, some 42, some true, none, none⟩).1.ValidAt =
      zeroTime := by
  refine ⟨rfl, ?_⟩
  exact (c6_validity_selection (fun _ => none) 7
    ⟨none, none, none, some 42, some true, none, none⟩).1 rfl

/-- C7: usage encode/decode round-trip — decoding any OR of a subset of
the four usage flags and re-encoding the resulting tokens through the
filter builder's token matching reproduces the original bitmask with no
errors, and a decoded token sequence is always a subsequence of the
fixed declared order Up, Down, Core, Propagation. -/
theorem c7_usage_roundtrip :
    (∀ b1 b2 b3 b4 : Bool,
      usageFold (UnpackBeaconUsages
        ((if b1 then UsageUpReg else 0) ||| (if b2 then UsageDownReg else 0) |||
          (if b3 then UsageCoreReg else 0) ||| (if b4 then UsageProp else 0))) [] =
      ((if b1 then UsageUpReg else 0) ||| (if b2 then UsageDownReg else 0) |||
        (if b3 then UsageCoreReg else 0) ||| (if b4 then UsageProp else 0), [])) ∧
    (∀ u : Usage, (UnpackBeaconUsages u).Sublist
      [UpRegistration, DownRegistration, CoreRegistration, Propagation]) := by
  constructor
  · intro b1 b2 b3 b4
    cases b1 <;> cases b2 <;> cases b3 <;> cases b4 <;> decide
  · intro u
    unfold UnpackBeaconUsages
    split <;> split <;> split <;> split <;> decide

/-- The signer check's name is fixed across all branches. -/
theorem signerCheck_name (now : Time) (h : SignerHealthData) :
    (signerCheck now h).Name = "valid signer available" := by
  unfold signerCheck
  repeat' split
  all_goals rfl

/-- The trust-root check's name is fixed across all branches. -/
theorem trcCheck_name (td : TRCHealthData) :
    (trcCheck td).Name = "TRC for local ISD available" := by
  unfold trcCheck
  repeat' split
  all_goals rfl

/-- C3: the signer health check evaluates its rules in fixed priority
order with first match winning — missing signer (Failing, detail from
the missing-reason when present), expired at or before now (Failing,
"signer certificate has expired"), grace period (Degraded with expiry
and grace flag in data), within six hours of expiry (Degraded with
expiry data and close-to-expiration detail), otherwise Passing with
expiry data. -/
theorem c3_signer_check_priority (now : Time) (h : SignerHealthData) :
    (h.SignerMissing = true →
      (signerCheck now h).Status = .Failing ∧
      (signerCheck now h).Detail =
        (if h.SignerMissingDetail ≠ "" then some h.SignerMissingDetail
          else none)) ∧
    (h.SignerMissing = false → h.Expiration ≤ now →
      (signerCheck now h).Status = .Failing ∧
      (signerCheck now h).Detail = some "signer certificate has expired") ∧
    (h.SignerMissing = false → now < h.Expiration → h.InGrace = true →
      (signerCheck now h).Status = .Degraded ∧
      (signerCheck now h).Data =
        [("expires_at", .time h.Expiration), ("in_grace", .bool true)]) ∧
    (h.SignerMissing = false → now < h.Expiration → h.InGrace = false →
      h.Expiration - now < sixHours →
      (signerCheck now h).Status = .Degraded ∧
      (signerCheck now h).Data = [("expires_at", .time h.Expiration)] ∧
      (signerCheck now h).Detail =
        some "signer certificate is close to expiration") ∧
    (h.SignerMissing = false → now < h.Expiration → h.InGrace = false →
      sixHours ≤ h.Expiration - now →
      (signerCheck now h).Status = .Passing ∧
      (signerCheck now h).Data = [("expires_at", .time h.Expiration)] ∧
      (signerCheck now h).Detail = none) := by
  refine ⟨?_, ?_, ?_, ?_, ?_⟩
  · intro hm
    unfold signerCheck
    rw [if_pos hm]
    exact ⟨rfl, rfl⟩
  · intro hm hle
    unfold signerCheck
    rw [if_neg (show ¬ h.SignerMissing = true by simp [hm]),
      if_pos (sub_nonpos.mpr hle)]
    exact ⟨rfl, rfl⟩
  · intro hm hlt hg
    unfold signerCheck
    rw [if_neg (show ¬ h.SignerMissing = true by simp [hm]),
      if_neg (not_le.mpr (sub_pos.mpr hlt)), if_pos hg]
    exact ⟨rfl, rfl⟩
  · intro hm hlt hg h6
    unfold signerCheck
    rw [if_neg (show ¬ h.SignerMissing = true by simp [hm]),
      if_neg (not_le.mpr (sub_pos.mpr hlt)),
      if_neg (show ¬ h.InGrace = true by simp [hg]), if_pos h6]
    exact ⟨rfl, rfl, rfl⟩
  · intro hm hlt hg h6
    unfold signerCheck
    rw [if_neg (show ¬ h.SignerMissing = true by simp [hm]),
      if_neg (not_le.mpr (sub_pos.mpr hlt)),
      if_neg (show ¬ h.InGrace = true by simp [hg]),
      if_neg (not_lt.mpr h6)]
    exact ⟨rfl, rfl, rfl⟩

/-- Witness for C3: the close-to-expiration scenario — three hours
before expiry, signer present and not in grace, the check is Degraded
with expiry data and the close-to-expiration detail. -/
theorem c3_witness :
    ((⟨false, "", 10800000000000, false⟩ : SignerHealthData).SignerMissing
        = false) ∧
    (0 : Time) < 10800000000000 ∧
    ((⟨false, "", 10800000000000, false⟩ : SignerHealthData).InGrace
        = false) ∧
    (10800000000000 - (0 : Time) < sixHours) ∧
    ((signerCheck 0 ⟨false, "", 10800000000000, false⟩).Status = .Degraded ∧
      (signerCheck 0 ⟨false, "", 10800000000000, false⟩).Data =
        [("expires_at", .time 10800000000000)] ∧
      (signerCheck 0 ⟨false, "", 10800000000000, false⟩).Detail =
        some "signer certificate is close to expiration") := by
  refine ⟨rfl, by decide, rfl, by decide, ?_⟩
  exact (c3_signer_check_priority 0 ⟨false, "", 10800000000000, false⟩).2.2.2.1
    rfl (by decide) rfl (by decide)

/-- C4: the aggregated report's overall status is the least healthy of
the included checks under Failing > Degraded > Passing, and the checks
appear in the order signer, trust-root, then CA when present. -/
theorem c4_aggregate_least_healthy (now : Time) (sd : SignerHealthData)
    (td : TRCHealthData) (ca : Option String) :
    (getHealthRun now sd td ca).Status =
      ((getHealthRun now sd td ca).Checks.map (·.Status)).foldl
        worseStatus .Passing ∧
    (getHealthRun now sd td ca).Checks.map (·.Name) =
      ["valid signer available", "TRC for local ISD available"] ++
        (match ca with
          | some _ => ["CPPKI CA Connection"]
          | none => []) := by
  constructor
  · cases ca with
    | none =>
      simp only [getHealthRun, healthChecks, List.append_nil, List.map_cons,
        List.map_nil]
      generalize (signerCheck now sd).Status = s1
      generalize (trcCheck td).Status = s2
      cases s1 <;> cases s2 <;> decide
    | some st =>
      simp only [getHealthRun, healthChecks, List.cons_append, List.nil_append,
        List.map_cons, List.map_nil]
      generalize (signerCheck now sd).Status = s1
      generalize (trcCheck td).Status = s2
      generalize (caCheck st).Status = s3
      cases s1 <;> cases s2 <;> cases s3 <;> decide
  · cases ca <;>
      simp [getHealthRun, healthChecks, signerCheck_name, trcCheck_name,
        caCheck]

/-- C5: the CA-connectivity check is included exactly when the probe is
applicable — without it the report has exactly the two signer and
trust-root checks; with it, the CA check is appended, maps Available to
Passing and anything else to Degraded with the raw state string in its
data, and never reports Failing. -/
theorem c5_ca_check_inclusion (now : Time) (sd : SignerHealthData)
    (td : TRCHealthData) :
    ((getHealthRun now sd td none).Checks.length = 2 ∧
      (getHealthRun now sd td none).Checks.map (·.Name) =
        ["valid signer available", "TRC for local ISD available"]) ∧
    (∀ status : String,
      (getHealthRun now sd td (some status)).Checks =
        (getHealthRun now sd td none).Checks ++ [caCheck status] ∧
      (status = Available → (caCheck status).Status = .Passing) ∧
      (status ≠ Available → (caCheck status).Status = .Degraded) ∧
      (caCheck status).Status ≠ .Failing ∧
      (caCheck status).Data = [("status", .str status)]) := by
  refine ⟨⟨?_, ?_⟩, ?_⟩
  · simp [getHealthRun, healthChecks]
  · simp [getHealthRun, healthChecks, signerCheck_name, trcCheck_name]
  · intro status
    refine ⟨?_, ?_, ?_, ?_, ?_⟩
    · simp [getHealthRun, healthChecks]
    · intro hs
      simp [caCheck, hs]
    · intro hs
      simp [caCheck, hs]
    · unfold caCheck
      split <;> simp
    · rfl

/-- Witness for C5: an applicable probe in state `starting` appends a
Degraded, non-Failing CA check carrying the raw state. -/
theorem c5_witness :
    (Starting ≠ Available) ∧
    ((getHealthRun 0 ⟨false, "", 1, false⟩ ⟨false, "", ⟨1, 1, 1⟩⟩
        (some Starting)).Checks =
      (getHealthRun 0 ⟨false, "", 1, false⟩ ⟨false, "", ⟨1, 1, 1⟩⟩
        none).Checks ++ [caCheck Starting] ∧
      (caCheck Starting).Status = .Degraded ∧
      (caCheck Starting).Status ≠ .Failing ∧
      (caCheck Starting).Data = [("status", .str Starting)]) := by
  have h := (c5_ca_check_inclusion 0 ⟨false, "", 1, false⟩
    ⟨false, "", ⟨1, 1, 1⟩⟩).2 Starting
  exact ⟨by decide, h.1, h.2.2.1 (by decide), h.2.2.2.1, h.2.2.2.2⟩

/-- C10: whenever the trust-root probe supplies a non-empty not-found
detail, the TRC check carries it — even when the TRC is reported found,
so a Passing trust-root check can carry the not-found detail alongside
its identifier data. -/
theorem c10_trc_detail_when_found (td : TRCHealthData) :
    (td.TRCNotFoundDetail ≠ "" →
      (trcCheck td).Detail = some td.TRCNotFoundDetail) ∧
    (td.TRCNotFound = false → td.TRCNotFoundDetail ≠ "" →
      (trcCheck td).Status = .Passing ∧
      (trcCheck td).Detail = some td.TRCNotFoundDetail ∧
      (trcCheck td).Data =
        [("base_number", .nat td.TRCID.Base),
         ("serial_number", .nat td.TRCID.Serial),
         ("isd", .nat td.TRCID.ISD)]) := by
  constructor
  · intro hd
    unfold trcCheck
    split
    · split <;> rfl
    · simp_all
  · intro hf hd
    simp [trcCheck, hf, hd]

/-- Witness for C10: a found TRC with a non-empty not-found detail
yields a Passing check that still carries the detail. -/
theorem c10_witness :
    ((⟨false, "trc was bootstrapped", ⟨1, 2, 3⟩⟩ :
        TRCHealthData).TRCNotFound = false) ∧
    ((⟨false, "trc was bootstrapped", ⟨1, 2, 3⟩⟩ :
        TRCHealthData).TRCNotFoundDetail ≠ "") ∧
    ((trcCheck ⟨false, "trc was bootstrapped", ⟨1, 2, 3⟩⟩).Status = .Passing ∧
      (trcCheck ⟨false, "trc was bootstrapped", ⟨1, 2, 3⟩⟩).Detail =
        some "trc was bootstrapped" ∧
      (trcCheck ⟨false, "trc was bootstrapped", ⟨1, 2, 3⟩⟩).Data =
        [("base_number", .nat 2), ("serial_number", .nat 3), ("isd", .nat 1)]) := by
  refine ⟨rfl, by decide, ?_⟩
  exact (c10_trc_detail_when_found
    ⟨false, "trc was bootstrapped", ⟨1, 2, 3⟩⟩).2 rfl (by decide)

/-- C9: for a single-beacon lookup with a well-formed hex identifier,
zero store matches and more than one store match are both reported as
400-class malformed-query problems (never 500-class); only an exactly
unique match returns the projected beacon. -/
theorem c9_get_beacon_multiplicity (segmentId : String)
    (store : QueryParams → Except String (List StoredBeacon))
    (id : List Nat) (results : List StoredBeacon)
    (hdec : hexDecode segmentId = some id)
    (hst : store { emptyQuery with SegIDs := [id] } = .ok results) :
    (results.length = 0 →
      getBeaconRun segmentId store =
        .badRequest "malformed query parameter"
          ("no beacon matched provided segment ID: " ++ segmentId)) ∧
    (results.length > 1 →
      getBeaconRun segmentId store =
        .badRequest "malformed query parameter"
          (toString results.length ++ " beacons matched provided segment ID: "
            ++ segmentId)) ∧
    (results.length = 1 →
      getBeaconRun segmentId store =
        .ok (projectBeacon (results.getD 0 default))) := by
  unfold getBeaconRun
  rw [hdec]
  dsimp only
  rw [hst]
  dsimp only
  refine ⟨?_, ?_, ?_⟩
  · intro h0
    rw [if_pos h0]
  · intro h1
    rw [if_neg (show ¬ results.length = 0 by omega), if_pos h1]
  · intro h1
    rw [if_neg (show ¬ results.length = 0 by omega),
      if_neg (show ¬ results.length > 1 by omega)]

/-- Witness for C9: a store that returns two records for the decoded
identifier `aa` produces a 400-class malformed-query problem. -/
theorem c9_witness :
    hexDecode "aa" = some [170] ∧
    (fun _ : QueryParams =>
        (.ok [default, default] : Except String (List StoredBeacon)))
      { emptyQuery with SegIDs := [[170]] } =
      .ok [default, default] ∧
    ([(default : StoredBeacon), default].length > 1) ∧
    getBeaconRun "aa"
        (fun _ => .ok [default, default]) =
      .badRequest "malformed query parameter"
        "2 beacons matched provided segment ID: aa" := by
  have h := (c9_get_beacon_multiplicity "aa"
    (fun _ => .ok [default, default]) [170] [default, default]
    (by decide) rfl).2.1 (by decide)
  exact ⟨by decide, rfl, by decide, h.trans (by decide)⟩

/-!
Permutation lemmas for the Go sort embedding: every data-moving
operation is a swap, so every function of the embedding returns a
permutation of its input list.
-/

section GoSortPerm

variable {α : Type} [Inhabited α]

/-- Replacing an element and cons-ing the old one in front permutes a
cons of the new element. -/
theorem cons_set_perm :
    ∀ (t : List α) (m : Nat) (x : α), m < t.length →
      (lget t m :: t.set m x).Perm (x :: t) := by
  intro t
  induction t with
  | nil =>
    intro m x h
    simp at h
  | cons b t' ih =>
    intro m x h
    cases m with
    | zero =>
      simp only [lget, List.getD_cons_zero, List.set_cons_zero]
      exact List.Perm.swap x b t'
    | succ k =>
      have hk : k < t'.length := by simpa using h
      simp only [lget, List.getD_cons_succ, List.set_cons_succ]
      exact ((List.Perm.swap b (lget t' k) (t'.set k x)).trans
        ((ih k x hk).cons b)).trans (List.Perm.swap x b t')

/-- A double `set` implementing a swap permutes the list. -/
theorem set_set_perm :
    ∀ (l : List α) (i j : Nat), i < l.length → j < l.length →
      ((l.set i (lget l j)).set j (lget l i)).Perm l := by
  intro l
  induction l with
  | nil =>
    intro i j hi _
    simp at hi
  | cons a t ih =>
    intro i j hi hj
    cases i with
    | zero =>
      cases j with
      | zero =>
        simp [lget]
      | succ k =>
        have hk : k < t.length := by simpa using hj
        simp only [lget, List.getD_cons_zero, List.getD_cons_succ,
          List.set_cons_zero, List.set_cons_succ]
        exact cons_set_perm t k a hk
    | succ m =>
      cases j with
      | zero =>
        have hm : m < t.length := by simpa using hi
        simp only [lget, List.getD_cons_zero, List.getD_cons_succ,
          List.set_cons_zero, List.set_cons_succ]
        exact cons_set_perm t m a hm
      | succ k =>
        have hm : m < t.length := by simpa using hi
        have hk : k < t.length := by simpa using hj
        simp only [lget, List.getD_cons_succ, List.set_cons_succ]
        exact (ih m k hm hk).cons a

/-- `lswap` permutes the list. -/
theorem lswap_perm (l : List α) (i j : Nat) : (lswap l i j).Perm l := by
  unfold lswap
  split
  · next h => exact set_set_perm l i j h.1 h.2
  · exact List.Perm.refl l

variable (less : α → α → Bool)

/-- The insertion-sort inner loop permutes the list. -/
theorem insSortInner_perm :
    ∀ (fuel : Nat) (l : List α) (a j : Nat),
      (insSortInner less fuel l a j).Perm l := by
  intro fuel
  induction fuel with
  | zero =>
    intro l a j
    exact List.Perm.refl l
  | succ f ih =>
    intro l a j
    unfold insSortInner
    split
    · exact (ih _ _ _).trans (lswap_perm l j (j - 1))
    · exact List.Perm.refl l

/-- The insertion-sort outer loop permutes the list. -/
theorem insSortOuter_perm :
    ∀ (fuel : Nat) (l : List α) (a b i : Nat),
      (insSortOuter less fuel l a b i).Perm l := by
  intro fuel
  induction fuel with
  | zero =>
    intro l a b i
    exact List.Perm.refl l
  | succ f ih =>
    intro l a b i
    unfold insSortOuter
    split
    · exact (ih _ _ _ _).trans (insSortInner_perm less i l a i)
    · exact List.Perm.refl l

/-- `insertionSortGo` permutes the list. -/
theorem insertionSortGo_perm (l : List α) (a b : Nat) :
    (insertionSortGo less l a b).Perm l :=
  insSortOuter_perm less (b + 1) l a b (a + 1)

/-- `siftDownGo` permutes the list. -/
theorem siftDownGo_perm :
    ∀ (fuel : Nat) (l : List α) (root hi first : Nat),
      (siftDownGo less fuel l root hi first).Perm l := by
  intro fuel
  induction fuel with
  | zero =>
    intro l root hi first
    exact List.Perm.refl l
  | succ f ih =>
    intro l root hi first
    unfold siftDownGo
    dsimp only
    split
    · exact List.Perm.refl l
    · split <;> split
      all_goals
        first
          | exact List.Perm.refl l
          | exact (ih _ _ _ _).trans (lswap_perm l _ _)

/-- The heap construction loop permutes the list. -/
theorem heapBuildGo_perm :
    ∀ (c : Nat) (l : List α) (hi first : Nat),
      (heapBuildGo less c l hi first).Perm l := by
  intro c
  induction c with
  | zero =>
    intro l hi first
    exact List.Perm.refl l
  | succ i ih =>
    intro l hi first
    unfold heapBuildGo
    exact (ih _ _ _).trans (siftDownGo_perm less hi l i hi first)

/-- The heap pop loop permutes the list. -/
theorem heapPopGo_perm :
    ∀ (c : Nat) (l : List α) (first : Nat),
      (heapPopGo less c l first).Perm l := by
  intro c
  induction c with
  | zero =>
    intro l first
    exact List.Perm.refl l
  | succ i ih =>
    intro l first
    unfold heapPopGo
    exact ((ih _ _).trans (siftDownGo_perm less _ _ _ _ _)).trans
      (lswap_perm l first (first + i + 1))

/-- `heapSortGo` permutes the list. -/
theorem heapSortGo_perm (l : List α) (a b : Nat) :
    (heapSortGo less l a b).Perm l := by
  unfold heapSortGo
  exact (heapPopGo_perm less _ _ _).trans (heapBuildGo_perm less _ _ _ _)

/-- The range-reversal loop permutes the list. -/
theorem reverseRangeLoop_perm :
    ∀ (fuel : Nat) (l : List α) (i j : Nat),
      (reverseRangeLoop fuel l i j).Perm l := by
  intro fuel
  induction fuel with
  | zero =>
    intro l i j
    exact List.Perm.refl l
  | succ f ih =>
    intro l i j
    unfold reverseRangeLoop
    split
    · exact (ih _ _ _).trans (lswap_perm l i j)
    · exact List.Perm.refl l

/-- `reverseRangeGo` permutes the list. -/
theorem reverseRangeGo_perm (l : List α) (a b : Nat) :
    (reverseRangeGo l a b).Perm l :=
  reverseRangeLoop_perm (b + 1) l a (b - 1)

/-- The partition main loop permutes the list. -/
theorem partLoopGo_perm :
    ∀ (fuel : Nat) (l : List α) (a i j : Nat),
      (partLoopGo less fuel l a i j).1.Perm l := by
  intro fuel
  induction fuel with
  | zero =>
    intro l a i j
    exact List.Perm.refl l
  | succ f ih =>
    intro l a i j
    unfold partLoopGo
    dsimp only
    split
    · exact List.Perm.refl l
    · exact (ih _ _ _ _).trans (lswap_perm l _ _)

/-- `partitionGo` permutes the list. -/
theorem partitionGo_perm (l : List α) (a b pivot : Nat) :
    (partitionGo less l a b pivot).1.Perm l := by
  unfold partitionGo
  dsimp only
  split
  · exact (lswap_perm _ _ _).trans (lswap_perm l a pivot)
  · exact ((lswap_perm _ _ _).trans
      ((partLoopGo_perm less _ _ _ _ _).trans
        (lswap_perm _ _ _))).trans (lswap_perm l a pivot)

/-- The equal-partition main loop permutes the list. -/
theorem partEqLoopGo_perm :
    ∀ (fuel : Nat) (l : List α) (a i j : Nat),
      (partEqLoopGo less fuel l a i j).1.Perm l := by
  intro fuel
  induction fuel with
  | zero =>
    intro l a i j
    exact List.Perm.refl l
  | succ f ih =>
    intro l a i j
    unfold partEqLoopGo
    dsimp only
    split
    · exact List.Perm.refl l
    · exact (ih _ _ _ _).trans (lswap_perm l _ _)

/-- `partitionEqualGo` permutes the list. -/
theorem partitionEqualGo_perm (l : List α) (a b pivot : Nat) :
    (partitionEqualGo less l a b pivot).1.Perm l := by
  unfold partitionEqualGo
  exact (partEqLoopGo_perm less _ _ _ _ _).trans (lswap_perm l a pivot)

/-- The left shift loop permutes the list. -/
theorem pisShiftLeft_perm :
    ∀ (fuel : Nat) (l : List α) (j : Nat),
      (pisShiftLeft less fuel l j).Perm l := by
  intro fuel
  induction fuel with
  | zero =>
    intro l j
    exact List.Perm.refl l
  | succ f ih =>
    intro l j
    unfold pisShiftLeft
    split
    · exact (ih _ _).trans (lswap_perm l j (j - 1))
    · exact List.Perm.refl l

/-- The right shift loop permutes the list. -/
theorem pisShiftRight_perm :
    ∀ (fuel : Nat) (l : List α) (b j : Nat),
      (pisShiftRight less fuel l b j).Perm l := by
  intro fuel
  induction fuel with
  | zero =>
    intro l b j
    exact List.Perm.refl l
  | succ f ih =>
    intro l b j
    unfold pisShiftRight
    split
    · exact (ih _ _ _).trans (lswap_perm l j (j - 1))
    · exact List.Perm.refl l

/-- `pisGo` permutes the list. -/
theorem pisGo_perm :
    ∀ (steps : Nat) (l : List α) (a b i : Nat),
      (pisGo less steps l a b i).1.Perm l := by
  intro steps
  induction steps with
  | zero =>
    intro l a b i
    exact List.Perm.refl l
  | succ s ih =>
    intro l a b i
    unfold pisGo
    dsimp only
    split
    · exact List.Perm.refl l
    · split
      · exact List.Perm.refl l
      · refine (ih _ _ _ _).trans ?_
        split
        · refine (pisShiftRight_perm less _ _ _ _).trans ?_
          split
          · exact (pisShiftLeft_perm less _ _ _).trans (lswap_perm l _ _)
          · exact lswap_perm l _ _
        · split
          · exact (pisShiftLeft_perm less _ _ _).trans (lswap_perm l _ _)
          · exact lswap_perm l _ _

/-- The pattern-breaking loop permutes the list. -/
theorem bpLoopGo_perm :
    ∀ (count : Nat) (l : List α) (r a len modulus idx : Nat),
      (bpLoopGo count l r a len modulus idx).Perm l := by
  intro count
  induction count with
  | zero =>
    intro l r a len modulus idx
    exact List.Perm.refl l
  | succ c ih =>
    intro l r a len modulus idx
    unfold bpLoopGo
    exact (ih _ _ _ _ _ _).trans (lswap_perm l _ _)

/-- `breakPatternsGo` permutes the list. -/
theorem breakPatternsGo_perm (l : List α) (a b : Nat) :
    (breakPatternsGo l a b).Perm l := by
  unfold breakPatternsGo
  dsimp only
  split
  · exact bpLoopGo_perm 3 l _ _ _ _ _
  · exact List.Perm.refl l

/-- `pdqBreak` permutes the list. -/
theorem pdqBreak_perm (l : List α) (a b : Nat) (wb : Bool) :
    (pdqBreak l a b wb).Perm l := by
  unfold pdqBreak
  split
  · exact List.Perm.refl l
  · exact breakPatternsGo_perm l a b

/-- `pdqRevStep` permutes the list. -/
theorem pdqRevStep_perm (l : List α) (a b : Nat) (hint : Hint) :
    (pdqRevStep l a b hint).Perm l := by
  unfold pdqRevStep
  split
  · exact reverseRangeGo_perm l a b
  · exact List.Perm.refl l

/-- `pdqPisStep` permutes the list. -/
theorem pdqPisStep_perm (go : Bool) (l : List α) (a b : Nat) :
    (pdqPisStep less go l a b).1.Perm l := by
  unfold pdqPisStep
  split
  · exact pisGo_perm less 5 l a b (a + 1)
  · exact List.Perm.refl l

/-- `pdqPrelude` permutes the list. -/
theorem pdqPrelude_perm (l : List α) (a b limit : Nat) (wb wp : Bool) :
    (pdqPrelude less l a b limit wb wp).1.Perm l := by
  unfold pdqPrelude
  dsimp only
  exact (pdqPisStep_perm less _ _ a b).trans
    ((pdqRevStep_perm _ a b _).trans (pdqBreak_perm l a b wb))

/-- `pdqsortGo` permutes the list. -/
theorem pdqsortGo_perm :
    ∀ (fuel : Nat) (l : List α) (a b limit : Nat) (wb wp : Bool),
      (pdqsortGo less fuel l a b limit wb wp).Perm l := by
  intro fuel
  induction fuel with
  | zero =>
    intro l a b limit wb wp
    exact List.Perm.refl l
  | succ f ih =>
    intro l a b limit wb wp
    unfold pdqsortGo
    dsimp only
    split
    · exact insertionSortGo_perm less l a b
    · split
      · exact heapSortGo_perm less l a b
      · split
        · exact pdqPrelude_perm less l a b limit wb wp
        · split
          · exact ((ih _ _ _ _ _ _).trans
              (partitionEqualGo_perm less _ _ _ _)).trans
              (pdqPrelude_perm less l a b limit wb wp)
          · split
            · exact ((ih _ _ _ _ _ _).trans ((ih _ _ _ _ _ _).trans
                (partitionGo_perm less _ _ _ _))).trans
                (pdqPrelude_perm less l a b limit wb wp)
            · exact ((ih _ _ _ _ _ _).trans ((ih _ _ _ _ _ _).trans
                (partitionGo_perm less _ _ _ _))).trans
                (pdqPrelude_perm less l a b limit wb wp)

/-- `sortGo` permutes the list. -/
theorem sortGo_perm (l : List α) : (sortGo less l).Perm l := by
  unfold sortGo
  split
  · exact List.Perm.refl l
  · exact pdqsortGo_perm less _ l 0 l.length (bitsLen l.length) true true

end GoSortPerm

/-- Counterexample to C2: thirteen store results sorted ascending by
the default `last_updated` key. The tied records `b00`/`b01`
(`last_updated = 1`) leave the sort in the order `b01, b00`, and the
tied record `b06` (`last_updated = 0`) overtakes `b02 … b05`: `sort.Sort`
is a pattern-defeating quicksort, not a stable sort, and its first
partition swap moves index 0 to index 6. -/
theorem c2_counterexample :
    sortFactory (some "last_updated") = .ok lastUpdatedLess ∧
    (c2Input.getD 0 default).LastUpdated = (c2Input.getD 1 default).LastUpdated ∧
    (c2Input.getD 0 default).Id = "b00" ∧
    (c2Input.getD 1 default).Id = "b01" ∧
    (sortApply lastUpdatedLess none c2Input).map (·.Id) =
      ["b06", "b02", "b03", "b04", "b05", "b07", "b08", "b09", "b10", "b11",
       "b12", "b01", "b00"] := by
  exact ⟨rfl, by decide, by decide, by decide, by decide⟩

/-- C2 (amended): the beacon sort orders by the single resolved key
with Go's `sort.Sort`, which is not stable — tied records may be
permuted relative to store order — but the output is always a
permutation of the input, and descending order is obtained by
reversing the comparator (`sort.Reverse`), not the output sequence. -/
theorem c2_sort_permutation (less : Beacon → Beacon → Bool)
    (desc : Option Bool) (l : List Beacon) :
    (sortApply less desc l).Perm l ∧
    (∀ a b, reverseLess less a b = less b a) := by
  constructor
  · unfold sortApply
    exact sortGo_perm _ l
  · intro a b
    rfl

/-- Counterexample to C8: in a descending `start_isd_as` request the
comparator is reversed, so the zero-hop record sorts after the one-hop
record in the returned sequence. -/
theorem c8_counterexample :
    sortFactory (some "start_isd_as") = .ok startIsdAsLess ∧
    c8NoHops.Hops = [] ∧
    c8OneHop.Hops ≠ [] ∧
    sortApply startIsdAsLess (some true) [c8NoHops, c8OneHop] =
      [c8OneHop, c8NoHops] := by
  exact ⟨rfl, rfl, by decide, by decide⟩

/-- C8 (amended): the `start_isd_as` comparator orders a record with
zero hops strictly before any record with one or more hops, regardless
of the ISD-AS strings — so zero-hop records sort first in an ascending
run, while a descending run reverses the comparator and places them
last. -/
theorem c8_zero_hops_comparator (a b : Beacon) (ha : a.Hops = [])
    (hb : b.Hops ≠ []) :
    startIsdAsLess a b = true ∧ startIsdAsLess b a = false := by
  have hb' : 0 < b.Hops.length := List.length_pos.mpr hb
  constructor
  · simp [startIsdAsLess, ha, hb']
  · simp [startIsdAsLess, ha]

/-- Witness for C8 (amended): the comparator orders the concrete
zero-hop record before the one-hop record and not conversely. -/
theorem c8_witness :
    c8NoHops.Hops = [] ∧ c8OneHop.Hops ≠ [] ∧
    startIsdAsLess c8NoHops c8OneHop = true ∧
    startIsdAsLess c8OneHop c8NoHops = false := by
  have h := c8_zero_hops_comparator c8NoHops c8OneHop rfl (by decide)
  exact ⟨rfl, by decide, h.1, h.2⟩

end Mgmtapi
